import Mathlib

/-!
Shallow embedding of the api_yamdb REST API core (api/views.py,
api/serializers.py) and proofs of its specification claims.

The embedding models every request handler as a pure function from an
explicit store state and a request body to a new state and a result value;
each result constructor records the HTTP status class and the error key
structure the handler produces.  Framework behaviour that the handlers rely
on (the DRF serializer pipeline, `get_object_or_404`, `get_or_create`) is
embedded following its documented semantics; in particular the serializer
pipeline runs field validators and `validate_<field>` hooks only for
writable fields, and skips read-only fields entirely.
-/

namespace YaMDb

/-- User roles (`User.Roles` choices: user / moderator / admin). -/
inductive Role
  | user
  | moderator
  | admin
deriving DecidableEq, Repr

/-- A row of the `User` table.  Modelled from the spec: the `User` model
itself (reviews/models.py) is not in the sources; the spec fixes username
(unique, ≤150 chars, restricted charset), email (unique, ≤254 chars),
optional first_name / last_name / bio, and a role defaulting to `user`. -/
structure UserRec where
  username : String
  email : String
  firstName : Option String := none
  lastName : Option String := none
  bio : Option String := none
  role : Role := .user
deriving DecidableEq, Repr

/-- A row of the `Title` table (fields the claims use; category/genre
associations are not consulted by any claim). -/
structure TitleRec where
  id : Nat
  name : String
  year : Int
deriving DecidableEq, Repr

/-- A row of the `Review` table.  `pubDate` is the server-assigned creation
timestamp (`auto_now_add`); `author` stores the author's username. -/
structure ReviewRec where
  id : Nat
  titleId : Nat
  author : String
  text : String
  score : Int
  pubDate : Nat
deriving DecidableEq, Repr

/-- A row of the `Comment` table. -/
structure CommentRec where
  id : Nat
  reviewId : Nat
  author : String
  text : String
  pubDate : Nat
deriving DecidableEq, Repr

/-- The persistent store: the tables the claims touch, plus id counters. -/
structure Store where
  users : List UserRec
  titles : List TitleRec
  reviews : List ReviewRec
  comments : List CommentRec
  nextReviewId : Nat := 0
  nextCommentId : Nat := 0
deriving DecidableEq, Repr

/-- The empty store. -/
def emptyStore : Store :=
  { users := [], titles := [], reviews := [], comments := [] }

/-! ### Field validation (serializers.py)

`UnicodeUsernameValidator` accepts letters, digits and `@ . + - _`; DRF
`CharField` additionally rejects the empty string (`allow_blank` defaults to
false) and enforces `max_length`.  `EmailField` is abstracted to: non-empty,
contains an `@`, and respects `max_length=254` — the claims never depend on
finer points of the email grammar. -/

/-- One character of a legal username (the validator's character class,
restricted to the ASCII range the witnesses use). -/
def isUsernameChar (c : Char) : Bool :=
  c.isAlphanum || c = '_' || c = '.' || c = '@' || c = '+' || c = '-'

/-- The field `username = serializers.CharField(max_length=150, validators=[UnicodeUsernameValidator()])`. -/
def usernameFieldValid (s : String) : Bool :=
  !s.isEmpty && s.length ≤ 150 && s.toList.all isUsernameChar

/-- The field `email = serializers.EmailField(max_length=254)` (abstracted). -/
def emailFieldValid (s : String) : Bool :=
  !s.isEmpty && s.length ≤ 254 && s.toList.any (· = '@')

/-! ### Signup (`sign_up` view, `SignUpSerializer`) -/

/-- Body of `POST /v1/auth/signup`. -/
structure SignUpData where
  email : String
  username : String
deriving DecidableEq, Repr

/-- Hook `SignUpSerializer.validate_username`: the reserved name `me` is refused.
Returns the list of error keys this hook contributes. -/
def SignUpSerializer.validate_username (value : String) : List String :=
  if value = "me" then ["username"] else []

/-- The keys of `serializer.errors` for a signup body: per-field validators
run first; the `validate_username` hook runs only when the field-level
validation of `username` passed. -/
def signUpErrors (d : SignUpData) : List String :=
  (if emailFieldValid d.email then [] else ["email"]) ++
  (if usernameFieldValid d.username then SignUpSerializer.validate_username d.username
   else ["username"])

/-- Result of the signup endpoint.  `ok` is HTTP 200 echoing the submitted
body (`serializer.data`); `invalid` is HTTP 400 with `serializer.errors`
keyed on the listed fields; `integrityError` is the caught `IntegrityError`
surfaced as HTTP 400; `mailFailure` models `send_mail` raising with
`fail_silently=False` — the exception propagates out of the view
uncaught. -/
inductive SignUpResult
  | ok (echo : SignUpData)
  | invalid (fields : List String)
  | integrityError (msg : String)
  | mailFailure
deriving DecidableEq, Repr

/-- Django `User.objects.get_or_create(**serializer.validated_data)`: fetch the row
matching both keyword arguments, else insert a fresh row; the insert trips
the store's unique constraints on username and on email (modelled from the
spec: both columns are unique) and surfaces an `IntegrityError`. -/
def getOrCreate (st : Store) (username email : String) :
    Except String (Store × UserRec) :=
  match st.users.find? (fun u => u.username = username && u.email = email) with
  | some u => .ok (st, u)
  | none =>
    if st.users.any (fun u => u.username = username || u.email = email) then
      .error "UNIQUE constraint failed"
    else
      let u : UserRec := { username := username, email := email }
      .ok ({ st with users := st.users ++ [u] }, u)

/-- The `sign_up` view.  `sinkOk` is the outcome of the notification sink
(`send_mail`): when it is false the dispatch raises after the user row was
already written, and nothing rolls the row back. -/
def sign_up (sinkOk : Bool) (st : Store) (d : SignUpData) :
    Store × SignUpResult :=
  if signUpErrors d = [] then
    match getOrCreate st d.username d.email with
    | .error msg => (st, .integrityError msg)
    | .ok (st', _user) =>
      if sinkOk then (st', .ok d) else (st', .mailFailure)
  else
    (st, .invalid (signUpErrors d))

/-! ### Token exchange (`recieve_token` view, `RecieveTokenSerializer`) -/

/-- Body of `POST /v1/auth/token`. -/
structure TokenData where
  username : String
  confirmationCode : String
deriving DecidableEq, Repr

/-- Keys of `serializer.errors` for a token body: `username` is a
`CharField` with the username validator, `confirmation_code` a plain
required `CharField`. -/
def tokenErrors (d : TokenData) : List String :=
  (if usernameFieldValid d.username then [] else ["username"]) ++
  (if d.confirmationCode.isEmpty then ["confirmation_code"] else [])

/-- Result of the token endpoint.  `token` is HTTP 200 whose payload is the
single field `token`; `invalid` is HTTP 400 with `serializer.errors`;
`notFound` is the 404 of `get_object_or_404`; `badCode` is the HTTP 400
response keyed on `confirmation_code`, carrying no token. -/
inductive TokenResult
  | token (t : String)
  | invalid (fields : List String)
  | notFound
  | badCode
deriving DecidableEq, Repr

/-- Token issuance `AccessToken.for_user`: a signed token bound to the user identity. -/
def accessTokenFor (u : UserRec) : String :=
  "access-" ++ u.username

/-- The `recieve_token` view.  `gen` abstracts
`default_token_generator.make_token`: a deterministic code derived from the
user's current state; `check_token` is equality against it. -/
def recieve_token (gen : UserRec → String) (st : Store) (d : TokenData) :
    TokenResult :=
  if tokenErrors d = [] then
    match st.users.find? (fun u => u.username = d.username) with
    | none => .notFound
    | some user =>
      if gen user = d.confirmationCode then .token (accessTokenFor user)
      else .badCode
  else
    .invalid (tokenErrors d)

/-! ### The user directory resource (`UserViewSet`, `UserSerializer`) -/

/-- Body of a `PATCH` against the user resource.  The serializer also
declares `email`, `first_name` and `last_name`; no claim mentions them and
they are omitted from the embedding. -/
structure PatchData where
  username : Option String := none
  role : Option String := none
  bio : Option String := none
deriving DecidableEq, Repr

/-- The valid values of `User.Roles.choices`. -/
def roleChoices : List String := ["user", "moderator", "admin"]

/-- Decode a role choice string. -/
def parseRole (s : String) : Option Role :=
  if s = "user" then some .user
  else if s = "moderator" then some .moderator
  else if s = "admin" then some .admin
  else none

/-- Keys of `serializer.errors` for a partial user update: only the fields
present in the body are validated (`partial=True`).  `role` is a
`ChoiceField` (anything outside the choices, including the empty string, is
an invalid choice); `bio` is a `CharField`, so blank is refused.  The
`UserSerializer.validate_username` duplicate check fires only on `POST` and
is skipped here. -/
def userPatchErrors (d : PatchData) : List String :=
  (match d.username with
   | none => []
   | some u => if usernameFieldValid u then [] else ["username"]) ++
  (match d.role with
   | none => []
   | some r => if r ∈ roleChoices then [] else ["role"]) ++
  (match d.bio with
   | none => []
   | some b => if b.isEmpty then ["bio"] else [])

/-- Python truthiness of `request.data.get('role')`: absent is `None`
(falsy); a string is truthy exactly when non-empty. -/
def roleTruthy (r : Option String) : Bool :=
  match r with
  | none => false
  | some s => !s.isEmpty

/-- Apply a validated partial update to a user row. -/
def applyPatch (u : UserRec) (d : PatchData) : UserRec :=
  { u with
    username := d.username.getD u.username
    role := ((d.role.bind parseRole).getD u.role)
    bio := match d.bio with | none => u.bio | some b => some b }

/-- Result of `UserViewSet.update`.  `ok` is HTTP 200 with the updated
record; `fieldError` is one of the view's own early HTTP 400 responses,
a single-field dict; `invalid` is the serializer's HTTP 400
(`raise_exception=True`); `notFound` is `get_object`'s 404. -/
inductive UpdateResult
  | ok (rec : UserRec)
  | fieldError (field : String)
  | invalid (fields : List String)
  | notFound
deriving DecidableEq, Repr

/-- The result is a 400-class error keyed on the given field, whichever of
the two 400 paths produced it. -/
def rejectsWithField (res : UpdateResult) (f : String) : Prop :=
  res = .fieldError f ∨ ∃ fs, res = .invalid fs ∧ f ∈ fs

/-- View method `UserViewSet.update`.  `caller` is `request.user` (the authenticated
identity — `get_permissions` grants any authenticated caller access when
the path segment is `me`, and requires an admin otherwise); `kwarg` is the
`username` path segment.  When it is `me`: a body username differing from
the caller's own is refused, then a truthy body role is refused; only then
does `get_object` resolve `me` to the caller's row and the serializer run
with `partial=True`. -/
def UserViewSet.update (st : Store) (caller : UserRec) (kwarg : String)
    (d : PatchData) : Store × UpdateResult :=
  if kwarg = "me" then
    if (match d.username with
        | none => false
        | some u => u ≠ caller.username) then
      (st, .fieldError "username")
    else if roleTruthy d.role then
      (st, .fieldError "role")
    else
      match st.users.find? (fun u => u.username = caller.username) with
      | none => (st, .notFound)
      | some inst =>
        if userPatchErrors d = [] then
          let users := st.users.map
            (fun u => if u.username = caller.username then applyPatch u d else u)
          ({ st with users := users }, .ok (applyPatch inst d))
        else
          (st, .invalid (userPatchErrors d))
  else
    match st.users.find? (fun u => u.username = kwarg) with
    | none => (st, .notFound)
    | some inst =>
      if userPatchErrors d = [] then
        let users := st.users.map
          (fun u => if u.username = kwarg then applyPatch u d else u)
        ({ st with users := users }, .ok (applyPatch inst d))
      else
        (st, .invalid (userPatchErrors d))

/-! ### Reviews (`ReviewViewSet`, `ReviewSerializer`) -/

/-- Body of a review create/update request.  `author` and `pub_date` may be
supplied by the client but are declared read-only on the serializer. -/
structure ReviewInput where
  text : Option String := none
  score : Option Int := none
  author : Option String := none
  pub_date : Option String := none
deriving DecidableEq, Repr

/-- Hook `ReviewSerializer.validate_author` as written in the source: look the
author up and refuse when a review by them on this title already exists.
The hook is attached to the read-only `author` field, so the serializer
pipeline never invokes it (DRF runs `validate_<field>` hooks only for
writable fields); were it invoked, its
`Review.objects.select_related(...).exists(title=..., author=...)` call
would itself raise a `TypeError`, since `exists()` accepts no arguments. -/
def ReviewSerializer.validate_author (st : Store) (titleId : Nat)
    (value : String) : Except String String :=
  if st.reviews.any (fun r => r.titleId = titleId && r.author = value) then
    .error "already reviewed"
  else
    .ok value

/-- Keys of `serializer.errors` for a review create body.  Only the
writable fields `text` and `score` are validated; the read-only `author`
and `pub_date` are skipped by the pipeline (so `validate_author` never
runs), and client-supplied values for them are discarded. -/
def reviewErrors (inp : ReviewInput) : List String :=
  (match inp.text with
   | none => ["text"]
   | some t => if t.isEmpty then ["text"] else []) ++
  (match inp.score with
   | none => ["score"]
   | some _ => [])

/-- Keys of `serializer.errors` for a partial review update
(`partial=True`: absent fields are simply not validated). -/
def reviewPatchErrors (inp : ReviewInput) : List String :=
  (match inp.text with
   | none => []
   | some t => if t.isEmpty then ["text"] else [])

/-- Result of a review request. -/
inductive ReviewResult
  | created (r : ReviewRec)
  | updated (r : ReviewRec)
  | invalid (fields : List String)
  | notFound
deriving DecidableEq, Repr

/-- Handler for `POST /v1/titles/{titleId}/reviews` (`CreateModelMixin.create` +
`ReviewViewSet.perform_create`).  The serializer validates first; then
`perform_create` resolves the title (404 when absent) and saves with
`author=self.request.user` and the server clock stamping `pub_date`. -/
def review_create (st : Store) (requestUser : UserRec) (titleId : Nat)
    (now : Nat) (inp : ReviewInput) : Store × ReviewResult :=
  if reviewErrors inp = [] then
    match st.titles.find? (fun t => t.id = titleId) with
    | none => (st, .notFound)
    | some _title =>
      let r : ReviewRec :=
        { id := st.nextReviewId
          titleId := titleId
          author := requestUser.username
          text := inp.text.getD ""
          score := inp.score.getD 0
          pubDate := now }
      ({ st with reviews := st.reviews ++ [r],
                 nextReviewId := st.nextReviewId + 1 },
       .created r)
  else
    (st, .invalid (reviewErrors inp))

/-- Patch one review row with the validated writable fields. -/
def reviewApplyPatch (r : ReviewRec) (inp : ReviewInput) : ReviewRec :=
  { r with
    text := inp.text.getD r.text
    score := inp.score.getD r.score }

/-- Handler for `PATCH /v1/titles/{titleId}/reviews/{reviewId}`: partial update through
the same serializer; the read-only `author` and `pub_date` are never
written. -/
def review_update (st : Store) (titleId reviewId : Nat)
    (inp : ReviewInput) : Store × ReviewResult :=
  match st.reviews.find? (fun r => r.id = reviewId && r.titleId = titleId) with
  | none => (st, .notFound)
  | some inst =>
    if reviewPatchErrors inp = [] then
      let reviews := st.reviews.map
        (fun r => if r.id = reviewId && r.titleId = titleId
                  then reviewApplyPatch r inp else r)
      ({ st with reviews := reviews }, .updated (reviewApplyPatch inst inp))
    else
      (st, .invalid (reviewPatchErrors inp))

/-! ### Comments (`CommentViewSet`, `CommentSerializer`) -/

/-- Body of a comment create request; `author` and `pub_date` are read-only
on the serializer. -/
structure CommentInput where
  text : Option String := none
  author : Option String := none
  pub_date : Option String := none
deriving DecidableEq, Repr

/-- Keys of `serializer.errors` for a comment create body: `text` is the
only writable field. -/
def commentErrors (inp : CommentInput) : List String :=
  match inp.text with
  | none => ["text"]
  | some t => if t.isEmpty then ["text"] else []

/-- Result of a comment request. -/
inductive CommentResult
  | created (c : CommentRec)
  | invalid (fields : List String)
  | notFound
deriving DecidableEq, Repr

/-- Handler for `POST /v1/titles/{titleId}/reviews/{reviewId}/comments`: the serializer
validates, then `perform_create` resolves the review (which must belong to
the title, else 404) and saves with `author=self.request.user` and the
server clock stamping `pub_date`. -/
def comment_create (st : Store) (requestUser : UserRec)
    (titleId reviewId : Nat) (now : Nat) (inp : CommentInput) :
    Store × CommentResult :=
  if commentErrors inp = [] then
    match st.reviews.find? (fun r => r.id = reviewId && r.titleId = titleId) with
    | none => (st, .notFound)
    | some _review =>
      let c : CommentRec :=
        { id := st.nextCommentId
          reviewId := reviewId
          author := requestUser.username
          text := inp.text.getD ""
          pubDate := now }
      ({ st with comments := st.comments ++ [c],
                 nextCommentId := st.nextCommentId + 1 },
       .created c)
  else
    (st, .invalid (commentErrors inp))

/-- Keys of `serializer.errors` for a partial comment update. -/
def commentPatchErrors (inp : CommentInput) : List String :=
  match inp.text with
  | none => []
  | some t => if t.isEmpty then ["text"] else []

/-- Patch one comment row with the validated writable fields. -/
def commentApplyPatch (c : CommentRec) (inp : CommentInput) : CommentRec :=
  { c with text := inp.text.getD c.text }

/-- Result of a comment update. -/
inductive CommentUpdateResult
  | updated (c : CommentRec)
  | invalid (fields : List String)
  | notFound
deriving DecidableEq, Repr

/-- Handler for `PATCH /v1/titles/{titleId}/reviews/{reviewId}/comments/{commentId}`:
partial update through the same serializer; the read-only `author` and
`pub_date` are never written. -/
def comment_update (st : Store) (commentId : Nat) (inp : CommentInput) :
    Store × CommentUpdateResult :=
  match st.comments.find? (fun c => c.id = commentId) with
  | none => (st, .notFound)
  | some inst =>
    if commentPatchErrors inp = [] then
      let comments := st.comments.map
        (fun c => if c.id = commentId then commentApplyPatch c inp else c)
      ({ st with comments := comments }, .updated (commentApplyPatch inst inp))
    else
      (st, .invalid (commentPatchErrors inp))

/-! ### Title rating (`TitleViewSet`, `TitleReadOnlySerializer`) -/

/-- The scores of a title's reviews, in store order. -/
def titleScores (st : Store) (titleId : Nat) : List Int :=
  (st.reviews.filter (fun r => r.titleId = titleId)).map (fun r => r.score)

/-- The queryset aggregate `Title.objects.annotate(rating=Avg('reviews__score'))`: SQL `AVG` is
`NULL` over the empty set, and otherwise the running sum divided by the row
count. -/
def avgRating (st : Store) (titleId : Nat) : Option ℚ :=
  match titleScores st titleId with
  | [] => none
  | l => some (((l.foldl (· + ·) 0 : Int) : ℚ) / (l.length : ℚ))

/-- Python `int()` on a rational: truncation toward zero. -/
def pyInt (q : ℚ) : Int :=
  if 0 ≤ q then Int.floor q else -(Int.floor (-q))

/-- The `rating` value the title serializers emit:
`rating = serializers.IntegerField(read_only=True)` applies `int(...)` to a
non-`NULL` aggregate, and the serializer renders a `NULL` attribute as
JSON `null`. -/
def ratingOut (st : Store) (titleId : Nat) : Option Int :=
  (avgRating st titleId).map pyInt

/-- Modelled from the spec: "Derived attribute `rating` = arithmetic mean
of associated review scores (null when no reviews)" — the exact rational
mean, to compare against the value the source pipeline emits. -/
def specRating (st : Store) (titleId : Nat) : Option ℚ :=
  match titleScores st titleId with
  | [] => none
  | l => some ((l.map (fun s : Int => (s : ℚ))).sum / (l.length : ℚ))

/-! ### Title year validation (`TitleSerializer.validate_year`) -/

/-- The error message of `validate_year`. -/
def yearErrMsg : String := "release year cannot exceed the current year"

/-- Hook `TitleSerializer.validate_year`: refuse a year strictly greater than
the current calendar year (`today` is `datetime.date.today().year`). -/
def TitleSerializer.validate_year (today : Int) (value : Int) :
    Except String Int :=
  if today < value then .error yearErrMsg else .ok value

/-! ### Concrete fixtures used by witnesses and counterexamples -/

/-- A plain user. -/
def aliceW : UserRec := { username := "alice", email := "alice@x.com" }

/-- A second plain user. -/
def bobW : UserRec := { username := "bob", email := "bob@x.com" }

/-- An administrator. -/
def adminW : UserRec := { username := "root", email := "r@x.com", role := .admin }

/-- A store holding one title and no reviews. -/
def titleStoreW : Store :=
  { emptyStore with titles := [{ id := 1, name := "T", year := 2000 }] }

/-- A concrete confirmation-code generator. -/
def genW : UserRec → String := fun u => "code-" ++ u.username

/-- A store holding just alice. -/
def aliceStoreW : Store := { emptyStore with users := [aliceW] }

/-- A store holding just the administrator. -/
def adminStoreW : Store := { emptyStore with users := [adminW] }

/-! ### Helper lemmas -/

/-- A `find?` over an append skips a prefix in which nothing matches. -/
theorem find?_append_of_none {α : Type} (p : α → Bool) {l1 : List α}
    (l2 : List α) (h : l1.find? p = none) :
    (l1 ++ l2).find? p = l2.find? p := by
  induction l1 with
  | nil => simp
  | cons a t ih =>
    rw [List.find?_cons] at h
    cases hp : p a with
    | false =>
      rw [hp] at h
      simpa [List.find?_cons, hp] using ih h
    | true => rw [hp] at h; cases h

/-- A left fold of addition over integers computes the list sum. -/
theorem foldl_add_eq_sum (l : List Int) : l.foldl (· + ·) 0 = l.sum := by
  have h : ∀ (l : List Int) (a : Int), l.foldl (· + ·) a = a + l.sum := by
    intro l
    induction l with
    | nil => simp
    | cons x t ih => intro a; simp [List.foldl_cons, ih, add_assoc]
  simpa using h l 0

/-- Casting an integer list sum to the rationals commutes with summation. -/
theorem sum_cast_rat (l : List Int) :
    ((l.sum : Int) : ℚ) = (l.map (fun s : Int => (s : ℚ))).sum := by
  induction l with
  | nil => simp
  | cons a t ih => simp [ih]

/-- Running `get_or_create` on a store in which neither the username nor the email
is taken inserts a fresh row. -/
theorem getOrCreate_fresh (st : Store) (username email : String)
    (hfresh : ∀ u ∈ st.users, u.username ≠ username ∧ u.email ≠ email) :
    getOrCreate st username email =
      .ok ({ st with users := st.users ++ [{ username := username, email := email }] },
           { username := username, email := email }) := by
  have h1 : st.users.find? (fun u => u.username = username && u.email = email)
      = none := by
    rw [List.find?_eq_none]
    intro u hu
    simp only [Bool.and_eq_true, decide_eq_true_eq, not_and]
    intro h _
    exact (hfresh u hu).1 h
  have h2 : st.users.any (fun u => u.username = username || u.email = email)
      = false := by
    rw [List.any_eq_false]
    intro u hu
    simp only [Bool.or_eq_true, decide_eq_true_eq, not_or]
    exact ⟨(hfresh u hu).1, (hfresh u hu).2⟩
  unfold getOrCreate
  rw [h1, h2]
  simp

/-- A non-empty string is not `isEmpty`. -/
theorem isEmpty_false_of_ne {s : String} (h : s ≠ "") : s.isEmpty = false := by
  cases hb : s.isEmpty with
  | false => rfl
  | true => exact absurd ((String.isEmpty_iff s).mp hb) h

/-- Mapping a projection over a pointwise-projection-preserving rewrite of a
list leaves the projected list unchanged. -/
theorem map_proj_of_preserve {α β : Type} (f : α → α) (proj : α → β)
    (l : List α) (h : ∀ a, proj (f a) = proj a) :
    (l.map f).map proj = l.map proj := by
  induction l with
  | nil => rfl
  | cons a t ih => simp [h, ih]

/-! ### Claim theorems -/

/-- C8: for every title create or update request, a year value strictly
greater than the current calendar year is rejected with a validation error,
and any year less than or equal to the current calendar year passes the
year validation. -/
theorem C8_year_validation (today value : Int) :
    (TitleSerializer.validate_year today value = .ok value ↔ value ≤ today) ∧
    (TitleSerializer.validate_year today value = .error yearErrMsg ↔
      today < value) := by
  unfold TitleSerializer.validate_year
  constructor
  · constructor
    · intro h
      by_contra hgt
      rw [if_pos (lt_of_not_le hgt)] at h
      cases h
    · intro h
      rw [if_neg (not_lt_of_le h)]
  · constructor
    · intro h
      by_contra hle
      rw [if_neg hle] at h
      cases h
    · intro h
      rw [if_pos h]

/-- C6: for every signup request whose username field equals the exact
string `me`, the signup operation fails with a 400-class validation error
keyed on the `username` field and no user is created. -/
theorem C6_signup_me_rejected (sinkOk : Bool) (st : Store) (d : SignUpData)
    (h : d.username = "me") :
    (sign_up sinkOk st d).1 = st ∧
    ∃ fs, (sign_up sinkOk st d).2 = .invalid fs ∧ "username" ∈ fs := by
  have herr : signUpErrors d =
      (if emailFieldValid d.email then [] else ["email"]) ++ ["username"] := by
    unfold signUpErrors SignUpSerializer.validate_username
    rw [h]
    norm_num [usernameFieldValid, isUsernameChar]
  unfold sign_up
  rw [herr]
  cases he : emailFieldValid d.email <;> simp

/-- Witness for C6 at a concrete signup body whose username is `me`. -/
theorem C6_signup_me_rejected_witness :
    (sign_up true emptyStore { email := "a@b.c", username := "me" }).1 =
      emptyStore ∧
    ∃ fs, (sign_up true emptyStore { email := "a@b.c", username := "me" }).2 =
      .invalid fs ∧ "username" ∈ fs :=
  C6_signup_me_rejected true emptyStore { email := "a@b.c", username := "me" }
    rfl

/-- C3: for every valid signup payload, calling the signup operation twice
with the same (username, email) pair leaves exactly one user with that pair
in the store (the first call adds it, the second call changes nothing) and
both calls return status 200 echoing the submitted (email, username). -/
theorem C3_signup_idempotent (st : Store) (d : SignUpData)
    (hval : signUpErrors d = [])
    (hfresh : ∀ u ∈ st.users, u.username ≠ d.username ∧ u.email ≠ d.email) :
    (sign_up true st d).2 = .ok d ∧
    (sign_up true (sign_up true st d).1 d).2 = .ok d ∧
    (sign_up true (sign_up true st d).1 d).1 = (sign_up true st d).1 ∧
    ((sign_up true st d).1.users.filter
      (fun u => u.username = d.username && u.email = d.email)).length = 1 ∧
    (sign_up true st d).1.users.length = st.users.length + 1 := by
  have hgc := getOrCreate_fresh st d.username d.email hfresh
  have h1 : sign_up true st d =
      ({ st with users := st.users ++ [{ username := d.username, email := d.email }] },
       .ok d) := by
    unfold sign_up
    rw [hval, hgc]
    simp
  have hfind : (st.users ++ [({ username := d.username, email := d.email } : UserRec)]).find?
      (fun u => u.username = d.username && u.email = d.email) =
      some { username := d.username, email := d.email } := by
    rw [find?_append_of_none]
    · simp [List.find?_cons]
    · rw [List.find?_eq_none]
      intro u hu
      simp only [Bool.and_eq_true, decide_eq_true_eq, not_and]
      intro h _
      exact (hfresh u hu).1 h
  have h2 : sign_up true (sign_up true st d).1 d = ((sign_up true st d).1, .ok d) := by
    rw [h1]
    unfold sign_up
    rw [hval]
    unfold getOrCreate
    simp only
    rw [hfind]
    simp
  have hfilter : st.users.filter
      (fun u => u.username = d.username && u.email = d.email) = [] := by
    rw [List.filter_eq_nil_iff]
    intro u hu
    simp only [Bool.and_eq_true, decide_eq_true_eq, not_and]
    intro h _
    exact (hfresh u hu).1 h
  refine ⟨by rw [h1], by rw [h2], by rw [h2], ?_, by rw [h1]; simp⟩
  rw [h1]
  simp only [List.filter_append, hfilter]
  simp

/-- Witness for C3 at a concrete fresh signup. -/
theorem C3_signup_idempotent_witness :
    (sign_up true emptyStore { email := "a@b.c", username := "alice" }).2 =
      .ok { email := "a@b.c", username := "alice" } ∧
    (sign_up true (sign_up true emptyStore { email := "a@b.c", username := "alice" }).1
      { email := "a@b.c", username := "alice" }).2 =
      .ok { email := "a@b.c", username := "alice" } ∧
    (sign_up true (sign_up true emptyStore { email := "a@b.c", username := "alice" }).1
      { email := "a@b.c", username := "alice" }).1 =
      (sign_up true emptyStore { email := "a@b.c", username := "alice" }).1 ∧
    ((sign_up true emptyStore { email := "a@b.c", username := "alice" }).1.users.filter
      (fun u => u.username = "alice" && u.email = "a@b.c")).length = 1 ∧
    (sign_up true emptyStore { email := "a@b.c", username := "alice" }).1.users.length =
      emptyStore.users.length + 1 :=
  C3_signup_idempotent emptyStore { email := "a@b.c", username := "alice" }
    (by decide) (by decide)

/-- C9: signup is not atomic with respect to notification delivery — when
validation passes, a fresh user row is created by get-or-create and the
notification sink then raises, the failure propagates to the caller while
the newly created user row persists in the store. -/
theorem C9_signup_mail_failure_persists_user (st : Store) (d : SignUpData)
    (hval : signUpErrors d = [])
    (hfresh : ∀ u ∈ st.users, u.username ≠ d.username ∧ u.email ≠ d.email) :
    (sign_up false st d).2 = .mailFailure ∧
    (sign_up false st d).1.users =
      st.users ++ [{ username := d.username, email := d.email }] := by
  have hgc := getOrCreate_fresh st d.username d.email hfresh
  unfold sign_up
  rw [hval, hgc]
  simp

/-- Witness for C9 at a concrete fresh signup with a failing sink. -/
theorem C9_signup_mail_failure_persists_user_witness :
    (sign_up false emptyStore { email := "a@b.c", username := "alice" }).2 =
      .mailFailure ∧
    (sign_up false emptyStore { email := "a@b.c", username := "alice" }).1.users =
      emptyStore.users ++ [{ username := "alice", email := "a@b.c" }] :=
  C9_signup_mail_failure_persists_user emptyStore
    { email := "a@b.c", username := "alice" } (by decide) (by decide)

/-- C4 counterexample: a token request whose username passes no field
validation (here it contains a space) and matches no existing user is
answered with the serializer's 400, not with the 404 the claim requires for
every request whose username does not match an existing user. -/
theorem C4_counterexample :
    emptyStore.users.find?
      (fun u => u.username = "bad name") = none ∧
    recieve_token genW emptyStore
      { username := "bad name", confirmationCode := "x" } =
      .invalid ["username"] ∧
    TokenResult.invalid ["username"] ≠ .notFound := by
  refine ⟨rfl, ?_, by decide⟩
  decide

/-- C4 (amended): for every token-exchange request that passes the
serializer's field validation, an unknown username yields 404; an existing
user with a non-validating code yields the 400-class error keyed on
`confirmation_code` and no token; an existing user with a validating code
yields the token as the sole payload field. -/
theorem C4_token_exchange (gen : UserRec → String) (st : Store)
    (d : TokenData) (hval : tokenErrors d = []) :
    (st.users.find? (fun v => v.username = d.username) = none →
      recieve_token gen st d = .notFound) ∧
    (∀ u, st.users.find? (fun v => v.username = d.username) = some u →
      gen u ≠ d.confirmationCode → recieve_token gen st d = .badCode) ∧
    (∀ u, st.users.find? (fun v => v.username = d.username) = some u →
      gen u = d.confirmationCode →
      recieve_token gen st d = .token (accessTokenFor u)) := by
  unfold recieve_token
  rw [hval]
  exact ⟨fun hnone => by simp [hnone], fun u hu hne => by simp [hu, hne],
         fun u hu heq => by simp [hu, heq]⟩

/-- Witness for C4 (amended) at a concrete store and generator. -/
theorem C4_token_exchange_witness :
    recieve_token genW { emptyStore with users := [aliceW] }
      { username := "alice", confirmationCode := "code-alice" } =
      .token (accessTokenFor aliceW) :=
  (C4_token_exchange genW { emptyStore with users := [aliceW] }
      { username := "alice", confirmationCode := "code-alice" }
      (by decide)).2.2 aliceW (by decide) (by decide)

/-- C1: the code accepts a second review by the same author on the same
title — the `validate_author` duplicate check is attached to the read-only
`author` field, so the serializer never runs it, and nothing else enforces
the at-most-one-review invariant.  Both create calls succeed and the store
ends with two reviews by the pair (alice, title 1); the last conjunct shows
the check itself, had it been invoked, would have refused the duplicate. -/
theorem C1_duplicate_review_accepted :
    (review_create titleStoreW aliceW 1 100
      { text := some "ok", score := some 8 }).2 =
      .created { id := 0, titleId := 1, author := "alice", text := "ok",
                 score := 8, pubDate := 100 } ∧
    (review_create (review_create titleStoreW aliceW 1 100
        { text := some "ok", score := some 8 }).1 aliceW 1 101
      { text := some "ok", score := some 8 }).2 =
      .created { id := 1, titleId := 1, author := "alice", text := "ok",
                 score := 8, pubDate := 101 } ∧
    ((review_create (review_create titleStoreW aliceW 1 100
        { text := some "ok", score := some 8 }).1 aliceW 1 101
      { text := some "ok", score := some 8 }).1.reviews.filter
      (fun r => r.author = "alice" && r.titleId = 1)).length = 2 ∧
    ReviewSerializer.validate_author
      (review_create titleStoreW aliceW 1 100
        { text := some "ok", score := some 8 }).1 1 "alice" =
      .error "already reviewed" := by
  refine ⟨by decide, by decide, by decide, by rfl⟩

/-- A store whose single title has reviews of scores 1 and 2. -/
def c2StoreW : Store :=
  { titleStoreW with reviews :=
    [{ id := 0, titleId := 1, author := "alice", text := "a", score := 1,
       pubDate := 0 },
     { id := 1, titleId := 1, author := "bob", text := "b", score := 2,
       pubDate := 0 }] }

/-- C2 counterexample: a title with two reviews of scores 1 and 2 has
arithmetic mean 3/2, but the pipeline emits the integer 1 — the
`IntegerField` serializer truncates the aggregate, so the emitted rating
does not equal the mean. -/
theorem C2_counterexample :
    ratingOut c2StoreW 1 = some 1 ∧
    specRating c2StoreW 1 = some (3 / 2 : ℚ) ∧
    (ratingOut c2StoreW 1).map (fun z : Int => (z : ℚ)) ≠
      specRating c2StoreW 1 := by
  have h1 : ratingOut c2StoreW 1 = some 1 := by
    simp [ratingOut, avgRating, titleScores, c2StoreW, titleStoreW,
      emptyStore, pyInt]
    norm_num
  have h2 : specRating c2StoreW 1 = some (3 / 2 : ℚ) := by
    simp [specRating, titleScores, c2StoreW, titleStoreW, emptyStore]
    norm_num
  refine ⟨h1, h2, ?_⟩
  rw [h1, h2]
  simp
  norm_num

/-- C2 (amended): for every title, the emitted `rating` is the truncation
toward zero (Python `int()`) of the arithmetic mean of the title's review
scores, and it is null exactly when the title has zero reviews. -/
theorem C2_rating_is_truncated_mean (st : Store) (titleId : Nat) :
    ratingOut st titleId = (specRating st titleId).map pyInt ∧
    (ratingOut st titleId = none ↔ titleScores st titleId = []) := by
  have havg : avgRating st titleId = specRating st titleId := by
    unfold avgRating specRating
    cases htl : titleScores st titleId with
    | nil => rfl
    | cons a t =>
      simp only [foldl_add_eq_sum, sum_cast_rat]
  constructor
  · unfold ratingOut
    rw [havg]
  · unfold ratingOut
    rw [havg]
    unfold specRating
    cases htl : titleScores st titleId with
    | nil => simp
    | cons a t => simp

/-- C7: for every review or comment create request, the stored author is
the authenticated requester and `pub_date` is the server clock, regardless
of the author or pub_date values supplied in the request body (the two
ignore-equations); subsequent updates leave every stored author and
pub_date unchanged (the two map-equations). -/
theorem C7_author_pubdate_server_assigned :
    (∀ st u tid now t s a p a' p',
      review_create st u tid now
          { text := t, score := s, author := a, pub_date := p } =
        review_create st u tid now
          { text := t, score := s, author := a', pub_date := p' }) ∧
    (∀ st u tid now inp r,
      (review_create st u tid now inp).2 = .created r →
        r.author = u.username ∧ r.pubDate = now) ∧
    (∀ st u tid rid now t a p a' p',
      comment_create st u tid rid now
          { text := t, author := a, pub_date := p } =
        comment_create st u tid rid now
          { text := t, author := a', pub_date := p' }) ∧
    (∀ st u tid rid now inp c,
      (comment_create st u tid rid now inp).2 = .created c →
        c.author = u.username ∧ c.pubDate = now) ∧
    (∀ st tid rid inp,
      (review_update st tid rid inp).1.reviews.map
          (fun r => (r.author, r.pubDate)) =
        st.reviews.map (fun r => (r.author, r.pubDate))) ∧
    (∀ st cid inp,
      (comment_update st cid inp).1.comments.map
          (fun c => (c.author, c.pubDate)) =
        st.comments.map (fun c => (c.author, c.pubDate))) := by
  refine ⟨fun st u tid now t s a p a' p' => rfl, ?_,
          fun st u tid rid now t a p a' p' => rfl, ?_, ?_, ?_⟩
  · intro st u tid now inp r h
    unfold review_create at h
    by_cases he : reviewErrors inp = []
    · rw [if_pos he] at h
      cases hf : st.titles.find? (fun t => t.id = tid) with
      | none => rw [hf] at h; cases h
      | some ttl =>
        rw [hf] at h
        simp only [ReviewResult.created.injEq] at h
        rw [← h]
        exact ⟨rfl, rfl⟩
    · rw [if_neg he] at h
      cases h
  · intro st u tid rid now inp c h
    unfold comment_create at h
    by_cases he : commentErrors inp = []
    · rw [if_pos he] at h
      cases hf : st.reviews.find? (fun r => r.id = rid && r.titleId = tid) with
      | none => rw [hf] at h; cases h
      | some rv =>
        rw [hf] at h
        simp only [CommentResult.created.injEq] at h
        rw [← h]
        exact ⟨rfl, rfl⟩
    · rw [if_neg he] at h
      cases h
  · intro st tid rid inp
    unfold review_update
    split
    · rfl
    · next inst heqf =>
      by_cases hp : reviewPatchErrors inp = []
      · rw [if_pos hp]
        exact map_proj_of_preserve _ _ _ (fun r => by
          by_cases hc : (r.id = rid && r.titleId = tid) = true
          · simp [hc, reviewApplyPatch]
          · simp [hc])
      · rw [if_neg hp]
  · intro st cid inp
    unfold comment_update
    split
    · rfl
    · next inst heqf =>
      by_cases hp : commentPatchErrors inp = []
      · rw [if_pos hp]
        exact map_proj_of_preserve _ _ _ (fun c => by
          by_cases hc : c.id = cid
          · simp [hc, commentApplyPatch]
          · simp [hc])
      · rw [if_neg hp]

/-- Witness for C7 at a concrete review create. -/
theorem C7_author_pubdate_server_assigned_witness :
    ({ id := 0, titleId := 1, author := "alice", text := "ok", score := 8,
       pubDate := 100 } : ReviewRec).author = aliceW.username ∧
    ({ id := 0, titleId := 1, author := "alice", text := "ok", score := 8,
       pubDate := 100 } : ReviewRec).pubDate = 100 :=
  C7_author_pubdate_server_assigned.2.1 titleStoreW aliceW 1 100
    { text := some "ok", score := some 8, author := some "bob",
      pub_date := some "1999" }
    { id := 0, titleId := 1, author := "alice", text := "ok", score := 8,
      pubDate := 100 }
    (by decide)

/-- C5: for every authenticated non-admin caller, a PATCH to `/users/me`
whose body carries a `username` different from the caller's own is rejected
with the field-keyed 400 and the store is unchanged; a body carrying any
`role` value is rejected with a 400-class error keyed on `role` (the view's
truthiness check for a non-empty value, the serializer's choice validation
for the empty string) and the store is unchanged; a body carrying only a
non-blank `bio` succeeds and updates only the caller's row. -/
theorem C5_me_patch_restrictions (st : Store) (caller : UserRec)
    (hrole : caller.role ≠ .admin)
    (hmem : st.users.find? (fun u => u.username = caller.username) =
      some caller) :
    (∀ d u, d.username = some u → u ≠ caller.username →
      UserViewSet.update st caller "me" d = (st, .fieldError "username")) ∧
    (∀ d r, (d.username = none ∨ d.username = some caller.username) →
      d.role = some r →
      (UserViewSet.update st caller "me" d).1 = st ∧
      rejectsWithField (UserViewSet.update st caller "me" d).2 "role") ∧
    (∀ b, b ≠ "" →
      UserViewSet.update st caller "me" { bio := some b } =
        ({ st with users := st.users.map (fun u =>
            if u.username = caller.username then { u with bio := some b }
            else u) },
         .ok { caller with bio := some b })) := by
  refine ⟨?_, ?_, ?_⟩
  · intro d u hdu hne
    unfold UserViewSet.update
    rw [if_pos rfl, hdu]
    simp [hne]
  · intro d r hdu hdr
    by_cases hre : r = ""
    · subst hre
      have hmemrole : "role" ∈ userPatchErrors d := by
        unfold userPatchErrors
        rw [hdr]
        simp [roleChoices]
      have hne2 : userPatchErrors d ≠ [] := by
        intro hnil
        rw [hnil] at hmemrole
        cases hmemrole
      have hres : UserViewSet.update st caller "me" d =
          (st, .invalid (userPatchErrors d)) := by
        unfold UserViewSet.update
        rw [if_pos rfl]
        have he : ("" : String).isEmpty = true := rfl
        rcases hdu with h | h <;>
          simp [h, roleTruthy, hdr, hmem, hne2, he]
      rw [hres]
      exact ⟨rfl, Or.inr ⟨userPatchErrors d, rfl, hmemrole⟩⟩
    · have hres : UserViewSet.update st caller "me" d =
          (st, .fieldError "role") := by
        unfold UserViewSet.update
        rw [if_pos rfl]
        have htr : roleTruthy d.role = true := by
          rw [hdr]
          simp [roleTruthy, isEmpty_false_of_ne hre]
        rcases hdu with h | h <;> simp [h, htr]
      rw [hres]
      exact ⟨rfl, Or.inl rfl⟩
  · intro b hb
    unfold UserViewSet.update
    rw [if_pos rfl]
    have hpe : userPatchErrors { bio := some b } = [] := by
      unfold userPatchErrors
      simp [isEmpty_false_of_ne hb]
    simp [roleTruthy, hmem, hpe, applyPatch]

/-- Witness for C5 at a concrete non-admin caller. -/
theorem C5_me_patch_restrictions_witness :
    UserViewSet.update aliceStoreW aliceW "me" { username := some "eve" } =
      (aliceStoreW, .fieldError "username") ∧
    rejectsWithField
      (UserViewSet.update aliceStoreW aliceW "me"
        { role := some "admin" }).2 "role" ∧
    UserViewSet.update aliceStoreW aliceW "me" { bio := some "hi" } =
      ({ aliceStoreW with users := aliceStoreW.users.map (fun u =>
          if u.username = aliceW.username then { u with bio := some "hi" }
          else u) },
       .ok { aliceW with bio := some "hi" }) := by
  have h := C5_me_patch_restrictions aliceStoreW aliceW (by decide) (by decide)
  exact ⟨h.1 { username := some "eve" } "eve" rfl (by decide),
         (h.2.1 { role := some "admin" } "admin" (Or.inl rfl) rfl).2,
         h.2.2 "hi" (by decide)⟩

/-- C10: the `/users/me` username and role restrictions are keyed solely on
the path segment being `me`: for every caller, including an admin, a body
username differing from the caller's own is rejected with the 400 keyed on
`username`, a truthy body role is rejected with the 400 keyed on `role`,
and for any other path segment the view never produces these early
single-field 400 responses. -/
theorem C10_me_checks_ignore_caller_role (st : Store) (caller : UserRec)
    (d : PatchData) :
    (∀ u, d.username = some u → u ≠ caller.username →
      UserViewSet.update st caller "me" d = (st, .fieldError "username")) ∧
    (∀ r, (d.username = none ∨ d.username = some caller.username) →
      d.role = some r → r ≠ "" →
      UserViewSet.update st caller "me" d = (st, .fieldError "role")) ∧
    (∀ kwarg, kwarg ≠ "me" → ∀ f,
      (UserViewSet.update st caller kwarg d).2 ≠ .fieldError f) := by
  refine ⟨?_, ?_, ?_⟩
  · intro u hdu hne
    unfold UserViewSet.update
    rw [if_pos rfl, hdu]
    simp [hne]
  · intro r hdu hdr hre
    unfold UserViewSet.update
    rw [if_pos rfl]
    have htr : roleTruthy d.role = true := by
      rw [hdr]
      simp [roleTruthy, isEmpty_false_of_ne hre]
    rcases hdu with h | h <;> simp [h, htr]
  · intro kwarg hk f
    unfold UserViewSet.update
    rw [if_neg hk]
    cases hfind : st.users.find? (fun u => u.username = kwarg) with
    | none => simp
    | some inst =>
      by_cases hp : userPatchErrors d = [] <;> simp [hp]

/-- Witness for C10 at a concrete admin caller. -/
theorem C10_me_checks_ignore_caller_role_witness :
    UserViewSet.update adminStoreW adminW "me" { username := some "eve" } =
      (adminStoreW, .fieldError "username") ∧
    UserViewSet.update adminStoreW adminW "me" { role := some "admin" } =
      (adminStoreW, .fieldError "role") := by
  exact ⟨(C10_me_checks_ignore_caller_role adminStoreW adminW
            { username := some "eve" }).1 "eve" rfl (by decide),
         (C10_me_checks_ignore_caller_role adminStoreW adminW
            { role := some "admin" }).2.1 "admin" (Or.inl rfl) rfl
            (by decide)⟩

end YaMDb
